import Mathlib

/-!
# Verification of the cafehub-client transport and correlator

Shallow embedding of `src/src/index.ts` (canonical `CafeHubClient`), with the
`connect` retry loop of `src/src/index.ts` lines 115-181 and the request
correlator (`nextRequestId`, `sendRequest`, `onData`, `teardown`).  The
variant revision `src/unnamed/part_000` (which has a `quiet` option) is
embedded where a claim cites it (`sendRequestResultQuiet`).

Modelling conventions:
* JS numbers that hold request ids are `Nat` (ids are non-negative integers);
  the wraparound `% 1000000000` is explicit.
* The pending-request map `this.requests` is a function `Nat → Option ReqRecord`.
  `delete this.requests[id]` is modelled as setting the record's `active`
  flag to `false` (a tombstone), so that theorems can still speak about the
  settlement state of a request after its entry left the pending set.  The
  pending set is the set of keys whose record is `active`.
* A deferred promise (`utils/defer`, not present under `src/`) is a
  single-assignment cell `DeferState`; a second resolve/reject is a no-op,
  mirroring JS promise semantics and the spec's design note on settlement.
* Asynchrony is modelled by an event trace: each `Ev` is one macrotask
  (an incoming message, a per-request timer firing, a teardown, or a new
  `sendRequest` registration).  JS microtasks that resume an awaiting
  `sendRequest` after its deferred settles run before the next macrotask,
  which is modelled by deactivating the settled entry (`drainAt`) within
  the same step.
-/

/-- Connection states of `CafeHubClient` (`CafeHubState` in the source). -/
inductive CafeHubState
| Disconnected
| Connecting
| Connected
deriving DecidableEq

/-- Wire message type tags (`MessageType` in `types.ts`). -/
inductive MessageType
| Request
| Response
| Update
deriving DecidableEq

/-- Update sub-type tags (`UpdateType` in `types.ts`). -/
inductive UpdateType
| ScanResult
| GATTNotify
| ConnectionState
| ExecutionError
deriving DecidableEq

/-- An inbound structured message, restricted to the fields the client reads:
`id`, `type`, `update`, `results.MAC` and `results.Name`. -/
structure RawMessage where
  id : Nat
  type : MessageType
  update : UpdateType
  mac : Option String
  name : Option String
deriving DecidableEq

/-- Modelled from the spec: `isUpdateMessage` guard from the missing
`types.ts` — recognises an `UPDATE` envelope by its type tag. -/
def isUpdateMessage (msg : RawMessage) : Bool :=
  match msg.type with
  | MessageType.Update => true
  | _ => false

/-- Modelled from the spec: `isGATTNotifyUpdate` guard from the missing
`types.ts` — an `UPDATE` envelope whose sub-type is `GATTNotify`. -/
def isGATTNotifyUpdate (msg : RawMessage) : Bool :=
  match msg.type, msg.update with
  | MessageType.Update, UpdateType.GATTNotify => true
  | _, _ => false

/-- Modelled from the spec: `isScanResultUpdate` guard from the missing
`types.ts` — an `UPDATE` envelope whose sub-type is `ScanResult`. -/
def isScanResultUpdate (msg : RawMessage) : Bool :=
  match msg.type, msg.update with
  | MessageType.Update, UpdateType.ScanResult => true
  | _, _ => false

/-- JS truthiness of `msg.results.MAC` (present and non-empty). -/
def macTruthy : Option String → Bool
| none => false
| some m => !(m = "")

/-- Failure values thrown/rejected by the client code
(`AbortError`, `SocketNotReadyError`, `TimeoutError`, a socket `CloseEvent`
used as a thrown value in `connect`, and other errors). -/
inductive Failure
| abortError
| socketNotReadyError
| timeoutError
| closeEventError
| otherError (n : Nat)
deriving DecidableEq

/-- Modelled from the spec: state of the deferred created by `utils/defer`
(missing from `src/`): a single-assignment settlement cell. -/
inductive DeferState
| unsettled
| resolvedWith (msg : RawMessage)
| rejectedWith (f : Failure)
deriving DecidableEq

/-- Modelled from the spec: resolving the deferred; a second settlement
attempt is a no-op (JS promise single-assignment). -/
def promResolve (msg : RawMessage) : DeferState → DeferState
| DeferState.unsettled => DeferState.resolvedWith msg
| d => d

/-- Modelled from the spec: rejecting the deferred; a second settlement
attempt is a no-op (JS promise single-assignment). -/
def tryReject (f : Failure) : DeferState → DeferState
| DeferState.unsettled => DeferState.rejectedWith f
| d => d

/-- One record of `this.requests`: the `resolveIf` predicate captured by the
`settlers` closure of `sendRequest`, whether the call passed a `timeout`
option, whether the entry is still in the pending map (`active`), and the
settlement state of its deferred. -/
structure ReqRecord where
  resolveIf : Option (RawMessage → Bool)
  hasTimeout : Bool
  active : Bool
  dstate : DeferState

/-- The client state of `CafeHubClient` (`src/src/index.ts` lines 35-44):
connection state, whether `this.ws` is set, the abort-controller generation
(`teardown` aborts the old controller and creates a fresh one), the request
id counter, and the pending-request map. -/
structure ClientState where
  chState : CafeHubState
  hasWs : Bool
  abortGen : Nat
  lastRequestId : Option Nat
  requests : Nat → Option ReqRecord

/-- Initial client: `Disconnected`, no socket, no requests. -/
def initialClient : ClientState :=
  { chState := CafeHubState.Disconnected
    hasWs := false
    abortGen := 0
    lastRequestId := none
    requests := fun _ => none }

/-- A freshly connected client, for concrete runs. -/
def connectedClient : ClientState :=
  { chState := CafeHubState.Connected
    hasWs := true
    abortGen := 0
    lastRequestId := none
    requests := fun _ => none }

/-- `const MaxRequestId = 1000000000` (`src/src/index.ts` line 28). -/
def MaxRequestId : Nat := 1000000000

/-- `nextRequestId` (`src/src/index.ts` lines 228-232):
`Math.max(1, ((this.lastRequestId || 0) + 1) % MaxRequestId)`.
The returned value is also stored back into `lastRequestId`. -/
def nextRequestId (lastRequestId : Option Nat) : Nat :=
  max 1 ((lastRequestId.getD 0 + 1) % MaxRequestId)

/-- The stored counter after `n` calls to `nextRequestId` from a fresh client. -/
def lastAfter : Nat → Option Nat
| 0 => none
| n + 1 => some (nextRequestId (lastAfter n))

/-- The id returned by the `(n+1)`-th call to `nextRequestId` on a fresh client. -/
def idOf (n : Nat) : Nat := nextRequestId (lastAfter n)

/-- `this.requests[id]` lookup: a record is in the pending map iff `active`. -/
def lookupActive (s : ClientState) (rid : Nat) : Option ReqRecord :=
  match s.requests rid with
  | some r => if r.active then some r else none
  | none => none

/-- Update the record stored at key `rid` in place (no-op if absent). -/
def updateReq (s : ClientState) (rid : Nat) (f : ReqRecord → ReqRecord) : ClientState :=
  { s with requests := fun k => if k = rid then (s.requests k).map f else s.requests k }

/-- Remove a record from the pending set once its deferred has settled
(an unsettled record is left pending). -/
def deactivateSettled (r : ReqRecord) : ReqRecord :=
  match r.dstate with
  | DeferState.unsettled => r
  | _ => { r with active := false }

/-- Microtask drain for key `rid`: when the deferred of `rid` has settled,
the `sendRequest` awaiting it resumes and its `finally` block runs
`delete this.requests[payload.id]` before the next macrotask. -/
def drainAt (s : ClientState) (rid : Nat) : ClientState :=
  updateReq s rid deactivateSettled

/-- The `settlers.resolve` closure of `sendRequest`
(`src/src/index.ts` lines 243-258): ignore messages with a different id;
with a `resolveIf` predicate, resolve the deferred only when it returns
true; otherwise resolve on the first id match. -/
def settlerResolve (payloadId : Nat) (resolveIf : Option (RawMessage → Bool))
    (msg : RawMessage) (d : DeferState) : DeferState :=
  if msg.id ≠ payloadId then d
  else
    match resolveIf with
    | some p => if p msg then promResolve msg d else d
    | none => promResolve msg d

/-- Whether a message passes the optional `resolveIf` predicate
(no predicate means every id match passes). -/
def predPasses (resolveIf : Option (RawMessage → Bool)) (msg : RawMessage) : Bool :=
  match resolveIf with
  | none => true
  | some p => p msg

/-- The effect of `settlers.resolve msg` on one pending record. -/
def settleWith (msg : RawMessage) (r0 : ReqRecord) : ReqRecord :=
  { r0 with dstate := settlerResolve msg.id r0.resolveIf msg r0.dstate }

/-- The effect of `teardown` on one record still in the pending map:
`reject(new AbortError())` followed by removal from the map. -/
def abortRecord (r : ReqRecord) : ReqRecord :=
  if r.active then
    { r with dstate := tryReject Failure.abortError r.dstate, active := false }
  else r

/-- The effect of the `catch` in `sendRequest` rejecting the deferred with
failure `f` (`settlers.reject(e)`). -/
def rejectRecord (f : Failure) (r0 : ReqRecord) : ReqRecord :=
  { r0 with dstate := tryReject f r0.dstate }

/-- Observable events emitted by the client. -/
inductive Emitted
| charChange (msg : RawMessage)
| updateMessage (msg : RawMessage)
| deviceFound (msg : RawMessage)
| stateChange (st : CafeHubState)
| teardownEv
deriving DecidableEq

/-- `onData` (`src/src/index.ts` lines 191-220): drop non-UPDATE envelopes;
an `id == 0` message is an unsolicited notification (emit `CharChange` when
it is a GATT notify, else drop) and never touches the pending map; otherwise
look the id up in the pending map, drop if absent, and if present *try* to
resolve the associated deferred via the `settlers.resolve` closure, always
emit `UpdateMessage`, and emit `DeviceFound` for a scan result with a MAC. -/
def onData (s : ClientState) (msg : RawMessage) : ClientState × List Emitted :=
  if isUpdateMessage msg = true then
    if msg.id = 0 then
      if isGATTNotifyUpdate msg = true then (s, [Emitted.charChange msg]) else (s, [])
    else
      match lookupActive s msg.id with
      | none => (s, [])
      | some _ =>
        (drainAt (updateReq s msg.id (settleWith msg)) msg.id,
         Emitted.updateMessage msg ::
           (if isScanResultUpdate msg = true ∧ macTruthy msg.mac = true then
              [Emitted.deviceFound msg]
            else []))
  else (s, [])

/-- The per-request timeout firing (`src/src/index.ts` lines 272-279):
when the race is still pending the `delay` branch throws `TimeoutError`,
the `catch` runs `settlers.reject(e)` and the `finally` deletes the entry.
A timer exists only when the request was issued with a `timeout` option,
and an already-removed entry means the race settled earlier (no-op). -/
def timerFire (s : ClientState) (rid : Nat) : ClientState :=
  match lookupActive s rid with
  | none => s
  | some r =>
    if r.hasTimeout then
      drainAt (updateReq s rid (rejectRecord Failure.timeoutError)) rid
    else s

/-- `teardown` (`src/src/index.ts` lines 57-80): detach and close the socket,
set state `Disconnected`, abort the old abort controller and create a fresh
one, reject every pending request with `AbortError`, clear the pending map,
and emit `Teardown` (a `StateChange` only when the state actually changed). -/
def teardown (s : ClientState) : ClientState × List Emitted :=
  ({ chState := CafeHubState.Disconnected
     hasWs := false
     abortGen := s.abortGen + 1
     lastRequestId := s.lastRequestId
     requests := fun k => (s.requests k).map abortRecord },
   (if s.chState = CafeHubState.Disconnected then []
    else [Emitted.stateChange CafeHubState.Disconnected]) ++ [Emitted.teardownEv])

/-- `send` (`src/src/index.ts` lines 183-189): throw `SocketNotReadyError`
unless a socket is present and the state is `Connected`; on success the
single frame handed to `ws.send` is returned, on failure no frame is sent. -/
def send (s : ClientState) (data : String) : Except Failure (List String) :=
  if s.hasWs = true ∧ s.chState = CafeHubState.Connected then Except.ok [data]
  else Except.error Failure.socketNotReadyError

/-- The synchronous prefix of `sendRequest` (`src/src/index.ts` lines 234-285):
assign the next id, register the `settlers` under that id, then call
`this.send`; if `send` throws (client not ready) the `catch` immediately
rejects the deferred with that failure and the `finally` deletes the entry
before `sendRequest` returns.  Returns the new state and the assigned id. -/
def sendRequestSync (s : ClientState) (rif : Option (RawMessage → Bool))
    (ht : Bool) : ClientState × Nat :=
  let id := nextRequestId s.lastRequestId
  let s1 : ClientState :=
    { chState := s.chState
      hasWs := s.hasWs
      abortGen := s.abortGen
      lastRequestId := some id
      requests := fun k =>
        if k = id then
          some { resolveIf := rif, hasTimeout := ht, active := true,
                 dstate := DeferState.unsettled }
        else s.requests k }
  if s1.hasWs = true ∧ s1.chState = CafeHubState.Connected then (s1, id)
  else
    (drainAt (updateReq s1 id (rejectRecord Failure.socketNotReadyError)) id, id)

/-- One macrotask-level event acting on the client. -/
inductive Ev
| deliver (msg : RawMessage)
| timerFires (rid : Nat)
| teardownE
| register (rif : Option (RawMessage → Bool)) (ht : Bool)

/-- Whether an event is a new `sendRequest` registration. -/
def Ev.isRegister : Ev → Bool
| Ev.register _ _ => true
| _ => false

/-- One step of the client together with the events it emits. -/
def stepE (s : ClientState) : Ev → ClientState × List Emitted
| Ev.deliver msg => onData s msg
| Ev.timerFires rid => (timerFire s rid, [])
| Ev.teardownE => teardown s
| Ev.register rif ht => ((sendRequestSync s rif ht).1, [])

/-- One step of the client (state part). -/
def step (s : ClientState) (e : Ev) : ClientState := (stepE s e).1

/-- Run a trace of events. -/
def run (s : ClientState) (evs : List Ev) : ClientState := evs.foldl step s

/-- How the awaited race inside `sendRequest` (`src/src/index.ts` lines
266-285) can finish: the deferred resolves (`return await promise` yields
the message), the deferred is rejected (teardown), the `delay` branch wins
and throws `TimeoutError`, or `this.send` threw before any await. -/
inductive RaceResult
| promiseResolved (msg : RawMessage)
| promiseRejected (f : Failure)
| timedOut
| sendThrew (f : Failure)
deriving DecidableEq

/-- Outcome of one `sendRequest` call as seen by its caller. -/
inductive CallOutcome
| returns (m : Option RawMessage)
| throws (f : Failure)
deriving DecidableEq

/-- The caller-visible outcome of `sendRequest` (`src/src/index.ts` lines
266-285) as a function of how the race finished: a resolved deferred is
returned; every failure is caught by `catch (e) { settlers.reject(e) }`,
which does not rethrow, so the async function resolves with `undefined`. -/
def sendRequestResult : RaceResult → CallOutcome
| RaceResult.promiseResolved msg => CallOutcome.returns (some msg)
| RaceResult.promiseRejected _ => CallOutcome.returns none
| RaceResult.timedOut => CallOutcome.returns none
| RaceResult.sendThrew _ => CallOutcome.returns none

/-- How the awaited race of the `part_000` revision
(`src/unnamed/part_000` lines 128-141) can finish: there the timeout branch
is a bare `delay(...)` that resolves silently. -/
inductive RaceResultQuiet
| resolved
| rejected (f : Failure)
| delayElapsed
deriving DecidableEq

/-- Outcome of one `sendRequest` call of the `part_000` revision
(on success it returns the request payload). -/
inductive CallOutcomeQuiet
| returnsPayload
| throws (f : Failure)
deriving DecidableEq

/-- The caller-visible outcome of the `part_000` revision's `sendRequest`
(`src/unnamed/part_000` lines 118-143): a rejection is rethrown unless
`quiet`; an elapsed timeout resolves silently and the payload is returned. -/
def sendRequestResultQuiet (quiet : Bool) : RaceResultQuiet → CallOutcomeQuiet
| RaceResultQuiet.resolved => CallOutcomeQuiet.returnsPayload
| RaceResultQuiet.delayElapsed => CallOutcomeQuiet.returnsPayload
| RaceResultQuiet.rejected f =>
  if quiet then CallOutcomeQuiet.returnsPayload else CallOutcomeQuiet.throws f

/-- `const ReconnectAfter = { Step: 250, Max: 10000 }`
(`src/src/index.ts` lines 30-33). -/
def ReconnectAfterStep : Nat := 250

/-- Cap of the reconnect backoff (`ReconnectAfter.Max`). -/
def ReconnectAfterMax : Nat := 10000

/-- The backoff update of `connect` (`src/src/index.ts` lines 165-168):
`Math.min((reanimateAfter || 0) + ReconnectAfter.Step, ReconnectAfter.Max)`. -/
def nextDelay (reanimateAfter : Option Nat) : Nat :=
  min (reanimateAfter.getD 0 + ReconnectAfterStep) ReconnectAfterMax

/-- The wait performed at the top of one loop iteration of `connect`
(`src/src/index.ts` lines 129-133): only when `reanimateAfter` is set. -/
def waitsOf : Option Nat → List Nat
| none => []
| some r => [r]

/-- The `retry` option of `connect`: `false | true | number`. -/
inductive Retry
| flag (b : Bool)
| count (n : Nat)

/-- `retry === true || (typeof retry === 'number' && retryCount < retry)`
(`src/src/index.ts` line 164). -/
def retryPermits : Retry → Nat → Bool
| Retry.flag b, _ => b
| Retry.count n, cnt => cnt < n

/-- How one connection attempt of `connect` finishes: the socket opens,
an `AbortError` arrives (teardown or a superseding `connect` aborted the
signal during the backoff delay or the attempt), the attempt fails with a
`CloseEvent`, or some other error is thrown. -/
inductive AttemptOutcome
| opened
| abortedSig
| closedEvt
| fatal (f : Failure)
deriving DecidableEq

/-- How the `connect` retry loop finishes. -/
inductive LoopOutcome
| connected
| abortedBreak
| threw (f : Failure)
| exhausted
deriving DecidableEq

/-- Trace of one run of the `connect` retry loop: its outcome, the backoff
waits it started, the `setState` calls it performed, and the number of
attempt outcomes it consumed. -/
structure LoopResult where
  outcome : LoopOutcome
  waits : List Nat
  stateSets : List CafeHubState
  attempts : Nat
deriving DecidableEq

/-- The `while (true)` retry loop of `connect` (`src/src/index.ts` lines
127-180), driven by a script of attempt outcomes; `reanimateAfter` and
`retryCount` are threaded exactly as in the source: wait `reanimateAfter`
when set, then attempt; on open set state `Connected` and break; on
`AbortError` break with no state change; on `CloseEvent` retry (updating the
backoff) when the policy permits, else set `Disconnected` and rethrow;
rethrow any other error. -/
def connectLoop (retry : Retry) :
    List AttemptOutcome → Option Nat → Nat → LoopResult
| [], _, _ => ⟨LoopOutcome.exhausted, [], [], 0⟩
| o :: rest, re, cnt =>
  match o with
  | AttemptOutcome.opened =>
    ⟨LoopOutcome.connected, waitsOf re, [CafeHubState.Connected], 1⟩
  | AttemptOutcome.abortedSig =>
    ⟨LoopOutcome.abortedBreak, waitsOf re, [], 1⟩
  | AttemptOutcome.closedEvt =>
    if retryPermits retry cnt then
      let r := connectLoop retry rest (some (nextDelay re)) (cnt + 1)
      ⟨r.outcome, waitsOf re ++ r.waits, r.stateSets, r.attempts + 1⟩
    else ⟨LoopOutcome.threw Failure.closeEventError, waitsOf re,
          [CafeHubState.Disconnected], 1⟩
  | AttemptOutcome.fatal f => ⟨LoopOutcome.threw f, waitsOf re, [], 1⟩

/-- The backoff delay before the `(n+1)`-th retry, starting from backoff
accumulator `re`: iterates `nextDelay`. -/
def backoffFrom (re : Option Nat) : Nat → Nat
| 0 => nextDelay re
| n + 1 => backoffFrom (some (nextDelay re)) n

/-- The backoff delay before the `(n+1)`-th retry of a fresh `connect` call. -/
def backoff (n : Nat) : Nat := backoffFrom none n

/-- The request `rid` is pending and unsettled, with record `r`. -/
def Live (s : ClientState) (rid : Nat) (r : ReqRecord) : Prop :=
  s.requests rid = some r ∧ r.active = true ∧ r.dstate = DeferState.unsettled

/-- The deferred of request `rid` has been settled with value `d`. -/
def SettledAt (s : ClientState) (rid : Nat) (d : DeferState) : Prop :=
  d ≠ DeferState.unsettled ∧ ∃ r, s.requests rid = some r ∧ r.dstate = d

/-- An event that completes the pending request `rid` with record `r`:
a matching UPDATE message that passes the predicate, its own timer firing
(when a timeout was requested), or a teardown. -/
def Completes (r : ReqRecord) (rid : Nat) : Ev → Prop
| Ev.deliver msg =>
  isUpdateMessage msg = true ∧ msg.id = rid ∧ rid ≠ 0 ∧ predPasses r.resolveIf msg = true
| Ev.timerFires k => k = rid ∧ r.hasTimeout = true
| Ev.teardownE => True
| Ev.register _ _ => False

/-- A settled deferred is unchanged by a further resolve. -/
theorem promResolve_of_settled (msg : RawMessage) (d : DeferState)
    (h : d ≠ DeferState.unsettled) : promResolve msg d = d := by
  cases d with
  | unsettled => exact absurd rfl h
  | resolvedWith m => rfl
  | rejectedWith f => rfl

/-- A settled deferred is unchanged by a further reject. -/
theorem tryReject_of_settled (f : Failure) (d : DeferState)
    (h : d ≠ DeferState.unsettled) : tryReject f d = d := by
  cases d with
  | unsettled => exact absurd rfl h
  | resolvedWith m => rfl
  | rejectedWith f2 => rfl

/-- A settled deferred is unchanged by the `settlers.resolve` closure. -/
theorem settlerResolve_of_settled (pid : Nat) (rif : Option (RawMessage → Bool))
    (msg : RawMessage) (d : DeferState) (h : d ≠ DeferState.unsettled) :
    settlerResolve pid rif msg d = d := by
  unfold settlerResolve
  split
  · rfl
  · cases rif with
    | none => exact promResolve_of_settled msg d h
    | some p =>
      simp only
      split
      · exact promResolve_of_settled msg d h
      · rfl

/-- Pointwise view of `updateReq`. -/
theorem updateReq_requests (s : ClientState) (rid : Nat) (f : ReqRecord → ReqRecord)
    (k : Nat) :
    (updateReq s rid f).requests k =
      if k = rid then (s.requests k).map f else s.requests k := rfl

/-- Pointwise view of the pending map after `teardown`. -/
theorem teardown_requests (s : ClientState) (k : Nat) :
    (teardown s).1.requests k = (s.requests k).map abortRecord := rfl

/-- `onData` leaves every other key of the pending map untouched. -/
theorem onData_requests_of_ne (s : ClientState) (msg : RawMessage) (k : Nat)
    (hk : k ≠ msg.id) : (onData s msg).1.requests k = s.requests k := by
  unfold onData
  split
  · split
    · split <;> rfl
    · cases hl : lookupActive s msg.id with
      | none => simp only [hl]
      | some r =>
        simp only [hl, drainAt, updateReq_requests, if_neg hk]
  · rfl

/-- `onData` drops messages that are not UPDATE envelopes. -/
theorem onData_of_notUpdate (s : ClientState) (msg : RawMessage)
    (hu : isUpdateMessage msg = false) : onData s msg = (s, []) := by
  unfold onData
  rw [if_neg]
  simp [hu]

/-- `onData` on an `id == 0` message returns without touching the state. -/
theorem onData_fst_of_zero (s : ClientState) (msg : RawMessage)
    (h0 : msg.id = 0) : (onData s msg).1 = s := by
  unfold onData
  split
  · split <;> rfl
  · rfl

/-- `onData` drops messages whose id has no pending entry. -/
theorem onData_fst_of_noentry (s : ClientState) (msg : RawMessage)
    (h0 : msg.id ≠ 0) (hl : lookupActive s msg.id = none) :
    (onData s msg).1 = s := by
  unfold onData
  split
  · simp only [hl]
  · rfl

/-- `onData` on a pending id settles the record through the `settlers`
closure and drains it. -/
theorem onData_requests_hit (s : ClientState) (msg : RawMessage) (r : ReqRecord)
    (hu : isUpdateMessage msg = true) (h0 : msg.id ≠ 0)
    (hr : s.requests msg.id = some r) (ha : r.active = true) :
    (onData s msg).1.requests msg.id =
      some (deactivateSettled (settleWith msg r)) := by
  have hl : lookupActive s msg.id = some r := by
    unfold lookupActive
    rw [hr]
    simp [ha]
  unfold onData
  rw [if_pos hu, if_neg h0]
  simp [hl, drainAt, updateReq_requests, hr]

/-- The events emitted by `onData` on a pending id always include the
`UpdateMessage` fan-out, independently of the predicate. -/
theorem onData_emits_update (s : ClientState) (msg : RawMessage) (r : ReqRecord)
    (hu : isUpdateMessage msg = true) (h0 : msg.id ≠ 0)
    (hr : s.requests msg.id = some r) (ha : r.active = true) :
    Emitted.updateMessage msg ∈ (onData s msg).2 := by
  have hl : lookupActive s msg.id = some r := by
    unfold lookupActive
    rw [hr]
    simp [ha]
  unfold onData
  rw [if_pos hu, if_neg h0]
  simp only [hl]
  exact List.mem_cons_self _ _

/-- `timerFire` is a no-op when the entry is gone. -/
theorem timerFire_of_noentry (s : ClientState) (rid : Nat)
    (hl : lookupActive s rid = none) : timerFire s rid = s := by
  unfold timerFire
  simp only [hl]

/-- `timerFire` is a no-op when the request was issued without a timeout. -/
theorem timerFire_of_noTimeout (s : ClientState) (rid : Nat) (r : ReqRecord)
    (hl : lookupActive s rid = some r) (ht : r.hasTimeout = false) :
    timerFire s rid = s := by
  unfold timerFire
  simp only [hl, ht]
  rfl

/-- `timerFire` on a pending entry with a timeout rejects and drains it. -/
theorem timerFire_requests_hit (s : ClientState) (rid : Nat) (r : ReqRecord)
    (hr : s.requests rid = some r) (ha : r.active = true) (ht : r.hasTimeout = true) :
    (timerFire s rid).requests rid =
      some (deactivateSettled (rejectRecord Failure.timeoutError r)) := by
  have hl : lookupActive s rid = some r := by
    unfold lookupActive
    rw [hr]
    simp [ha]
  unfold timerFire
  simp [hl, ht, drainAt, updateReq_requests, hr]

/-- `timerFire` leaves every other key untouched. -/
theorem timerFire_requests_of_ne (s : ClientState) (rid : Nat) (k : Nat)
    (hk : k ≠ rid) : (timerFire s rid).requests k = s.requests k := by
  unfold timerFire
  cases hl : lookupActive s rid with
  | none => rfl
  | some r =>
    simp only
    split
    · simp only [drainAt, updateReq_requests, if_neg hk]
    · rfl

/-- Draining never changes the settlement state, only the pending flag. -/
theorem deactivateSettled_dstate (r : ReqRecord) :
    (deactivateSettled r).dstate = r.dstate := by
  unfold deactivateSettled
  split <;> rfl

/-- Draining is a no-op on an unsettled record. -/
theorem deactivateSettled_of_unsettled (r : ReqRecord)
    (h : r.dstate = DeferState.unsettled) : deactivateSettled r = r := by
  unfold deactivateSettled
  split
  · rfl
  · next heq => rw [h] at heq; exact absurd heq (by simp)

/-- The `settlers.resolve` closure does not change a settled record. -/
theorem settleWith_dstate_of_settled (msg : RawMessage) (r : ReqRecord)
    (h : r.dstate ≠ DeferState.unsettled) : (settleWith msg r).dstate = r.dstate :=
  settlerResolve_of_settled _ _ _ _ h

/-- The `settlers.resolve` closure is the identity when the predicate fails. -/
theorem settleWith_of_predFail (msg : RawMessage) (r : ReqRecord)
    (h : predPasses r.resolveIf msg = false) : settleWith msg r = r := by
  obtain ⟨rif, ht, act, d⟩ := r
  cases rif with
  | none => simp [predPasses] at h
  | some p =>
    simp only [predPasses] at h
    simp [settleWith, settlerResolve, h]

/-- The `settlers.resolve` closure resolves an unsettled record when the
predicate passes. -/
theorem settleWith_of_predPass (msg : RawMessage) (r : ReqRecord)
    (hd : r.dstate = DeferState.unsettled)
    (h : predPasses r.resolveIf msg = true) :
    settleWith msg r = { r with dstate := DeferState.resolvedWith msg } := by
  obtain ⟨rif, ht, act, d⟩ := r
  simp only at hd
  subst hd
  cases rif with
  | none => simp [settleWith, settlerResolve, promResolve]
  | some p =>
    simp only [predPasses] at h
    simp [settleWith, settlerResolve, promResolve, h]

/-- A reject by the `catch` of `sendRequest` does not change a settled record. -/
theorem rejectRecord_dstate_of_settled (f : Failure) (r : ReqRecord)
    (h : r.dstate ≠ DeferState.unsettled) : (rejectRecord f r).dstate = r.dstate :=
  tryReject_of_settled _ _ h

/-- Teardown does not change the settlement value of a settled record. -/
theorem abortRecord_dstate_of_settled (r : ReqRecord)
    (h : r.dstate ≠ DeferState.unsettled) : (abortRecord r).dstate = r.dstate := by
  unfold abortRecord
  split
  · exact tryReject_of_settled _ _ h
  · rfl

/-- A settled deferred keeps its settlement value across any non-register
event: no completion path can settle a request a second time. -/
theorem SettledAt_step (s : ClientState) (rid : Nat) (d : DeferState) (e : Ev)
    (hreg : e.isRegister = false) (h : SettledAt s rid d) :
    SettledAt (step s e) rid d := by
  obtain ⟨hd, r, hr, hrd⟩ := h
  refine ⟨hd, ?_⟩
  have hrd' : r.dstate ≠ DeferState.unsettled := by rw [hrd]; exact hd
  cases e with
  | deliver msg =>
    by_cases hk : rid = msg.id
    · subst hk
      by_cases hu : isUpdateMessage msg = true
      · by_cases h0 : msg.id = 0
        · refine ⟨r, ?_, hrd⟩
          show (onData s msg).1.requests msg.id = some r
          rw [onData_fst_of_zero s msg h0, hr]
        · cases ha : r.active with
          | false =>
            have hl : lookupActive s msg.id = none := by
              unfold lookupActive
              rw [hr]
              simp [ha]
            refine ⟨r, ?_, hrd⟩
            show (onData s msg).1.requests msg.id = some r
            rw [onData_fst_of_noentry s msg h0 hl, hr]
          | true =>
            refine ⟨deactivateSettled (settleWith msg r), ?_, ?_⟩
            · exact onData_requests_hit s msg r hu h0 hr ha
            · rw [deactivateSettled_dstate, settleWith_dstate_of_settled msg r hrd', hrd]
      · have hu2 : isUpdateMessage msg = false := by
          cases hv : isUpdateMessage msg
          · rfl
          · exact absurd hv hu
        refine ⟨r, ?_, hrd⟩
        show (onData s msg).1.requests msg.id = some r
        rw [onData_of_notUpdate s msg hu2]
        exact hr
    · refine ⟨r, ?_, hrd⟩
      show (onData s msg).1.requests rid = some r
      rw [onData_requests_of_ne s msg rid hk, hr]
  | timerFires k =>
    by_cases hk : rid = k
    · subst hk
      cases ha : r.active with
      | false =>
        have hl : lookupActive s rid = none := by
          unfold lookupActive
          rw [hr]
          simp [ha]
        refine ⟨r, ?_, hrd⟩
        show (timerFire s rid).requests rid = some r
        rw [timerFire_of_noentry s rid hl, hr]
      | true =>
        have hl : lookupActive s rid = some r := by
          unfold lookupActive
          rw [hr]
          simp [ha]
        cases ht : r.hasTimeout with
        | false =>
          refine ⟨r, ?_, hrd⟩
          show (timerFire s rid).requests rid = some r
          rw [timerFire_of_noTimeout s rid r hl ht, hr]
        | true =>
          refine ⟨deactivateSettled (rejectRecord Failure.timeoutError r), ?_, ?_⟩
          · exact timerFire_requests_hit s rid r hr ha ht
          · rw [deactivateSettled_dstate, rejectRecord_dstate_of_settled _ r hrd', hrd]
    · refine ⟨r, ?_, hrd⟩
      show (timerFire s k).requests rid = some r
      rw [timerFire_requests_of_ne s k rid hk, hr]
  | teardownE =>
    refine ⟨abortRecord r, ?_, ?_⟩
    · show (teardown s).1.requests rid = some (abortRecord r)
      rw [teardown_requests, hr]
      rfl
    · rw [abortRecord_dstate_of_settled r hrd', hrd]
  | register rif ht => exact absurd hreg (by simp [Ev.isRegister])

/-- A pending, unsettled request is left exactly as it is by any event that
does not complete it (mismatching id, failing predicate, a foreign timer,
a timer when no timeout was requested). -/
theorem Live_step (s : ClientState) (rid : Nat) (r : ReqRecord) (e : Ev)
    (hreg : e.isRegister = false) (hnc : ¬ Completes r rid e)
    (h : Live s rid r) : Live (step s e) rid r := by
  obtain ⟨hr, ha, hd⟩ := h
  refine ⟨?_, ha, hd⟩
  cases e with
  | deliver msg =>
    by_cases hk : rid = msg.id
    · subst hk
      by_cases hu : isUpdateMessage msg = true
      · by_cases h0 : msg.id = 0
        · show (onData s msg).1.requests msg.id = some r
          rw [onData_fst_of_zero s msg h0]
          exact hr
        · have hp : predPasses r.resolveIf msg = false := by
            cases hv : predPasses r.resolveIf msg
            · rfl
            · exact absurd ⟨hu, rfl, h0, hv⟩ hnc
          show (onData s msg).1.requests msg.id = some r
          rw [onData_requests_hit s msg r hu h0 hr ha,
            settleWith_of_predFail msg r hp, deactivateSettled_of_unsettled r hd]
      · have hu2 : isUpdateMessage msg = false := by
          cases hv : isUpdateMessage msg
          · rfl
          · exact absurd hv hu
        show (onData s msg).1.requests msg.id = some r
        rw [onData_of_notUpdate s msg hu2]
        exact hr
    · show (onData s msg).1.requests rid = some r
      rw [onData_requests_of_ne s msg rid hk]
      exact hr
  | timerFires k =>
    by_cases hk : k = rid
    · subst hk
      have ht : r.hasTimeout = false := by
        cases hv : r.hasTimeout
        · rfl
        · exact absurd ⟨rfl, hv⟩ hnc
      have hl : lookupActive s k = some r := by
        unfold lookupActive
        rw [hr]
        simp [ha]
      show (timerFire s k).requests k = some r
      rw [timerFire_of_noTimeout s k r hl ht]
      exact hr
    · show (timerFire s k).requests rid = some r
      rw [timerFire_requests_of_ne s k rid (fun hh => hk hh.symm)]
      exact hr
  | teardownE => exact absurd trivial hnc
  | register rif ht => exact absurd hreg (by simp [Ev.isRegister])

/-- A matching UPDATE message whose predicate passes settles a pending
request with the message itself and removes it from the pending set. -/
theorem deliver_settles (s : ClientState) (rid : Nat) (r : ReqRecord)
    (msg : RawMessage) (h : Live s rid r) (hu : isUpdateMessage msg = true)
    (hid : msg.id = rid) (h0 : rid ≠ 0)
    (hp : predPasses r.resolveIf msg = true) :
    (step s (Ev.deliver msg)).requests rid =
      some { r with dstate := DeferState.resolvedWith msg, active := false } := by
  obtain ⟨hr, ha, hd⟩ := h
  subst hid
  show (onData s msg).1.requests msg.id = _
  rw [onData_requests_hit s msg r hu h0 hr ha, settleWith_of_predPass msg r hd hp]
  unfold deactivateSettled
  rfl

/-- The per-request timer settles a pending request with `TimeoutError`
and removes it from the pending set. -/
theorem timer_settles (s : ClientState) (rid : Nat) (r : ReqRecord)
    (h : Live s rid r) (ht : r.hasTimeout = true) :
    (step s (Ev.timerFires rid)).requests rid =
      some { r with dstate := DeferState.rejectedWith Failure.timeoutError,
                    active := false } := by
  obtain ⟨hr, ha, hd⟩ := h
  show (timerFire s rid).requests rid = _
  rw [timerFire_requests_hit s rid r hr ha ht]
  unfold rejectRecord
  rw [hd]
  unfold tryReject deactivateSettled
  rfl

/-- `teardown` settles every record still in the pending map with
`AbortError` (a no-op on its deferred if it was already settled) and
removes it from the pending set. -/
theorem teardown_settles (s : ClientState) (rid : Nat) (r : ReqRecord)
    (hr : s.requests rid = some r) (ha : r.active = true) :
    (step s Ev.teardownE).requests rid =
      some { r with dstate := tryReject Failure.abortError r.dstate,
                    active := false } := by
  show (teardown s).1.requests rid = _
  rw [teardown_requests, hr]
  simp [abortRecord, ha]

/-- Every completing event settles a live request. -/
theorem Completes_settles (s : ClientState) (rid : Nat) (r : ReqRecord) (e : Ev)
    (h : Live s rid r) (hc : Completes r rid e) :
    ∃ d, SettledAt (step s e) rid d := by
  obtain ⟨hr, ha, hd⟩ := h
  cases e with
  | deliver msg =>
    obtain ⟨hu, hid, h0, hp⟩ := hc
    exact ⟨DeferState.resolvedWith msg, by simp,
      { r with dstate := DeferState.resolvedWith msg, active := false },
      deliver_settles s rid r msg ⟨hr, ha, hd⟩ hu hid h0 hp, rfl⟩
  | timerFires k =>
    obtain ⟨hk, ht⟩ := hc
    subst hk
    exact ⟨DeferState.rejectedWith Failure.timeoutError, by simp,
      { r with dstate := DeferState.rejectedWith Failure.timeoutError, active := false },
      timer_settles s k r ⟨hr, ha, hd⟩ ht, rfl⟩
  | teardownE =>
    refine ⟨DeferState.rejectedWith Failure.abortError, by simp,
      { r with dstate := tryReject Failure.abortError r.dstate, active := false },
      teardown_settles s rid r hr ha, ?_⟩
    rw [hd]
    rfl
  | register rif ht => exact absurd hc (by simp [Completes])

/-- Unfolding `run` on a cons. -/
theorem run_cons (s : ClientState) (e : Ev) (evs : List Ev) :
    run s (e :: evs) = run (step s e) evs := rfl

/-- Unfolding `run` on the empty trace. -/
theorem run_nil (s : ClientState) : run s [] = s := rfl

/-- Over any register-free trace, a settled deferred keeps its first
settlement value: a request is never settled a second time. -/
theorem SettledAt_run (evs : List Ev) :
    ∀ (s : ClientState) (rid : Nat) (d : DeferState),
      (∀ e ∈ evs, e.isRegister = false) → SettledAt s rid d →
      SettledAt (run s evs) rid d := by
  induction evs with
  | nil => intro s rid d _ h; exact h
  | cons e rest ih =>
    intro s rid d hreg h
    rw [run_cons]
    exact ih (step s e) rid d (fun x hx => hreg x (List.mem_cons_of_mem e hx))
      (SettledAt_step s rid d e (hreg e (List.mem_cons_self e rest)) h)

/-- Over any register-free trace containing a completing event, a live
request ends up settled: settlement never fails to happen. -/
theorem Live_run_settles (evs : List Ev) :
    ∀ (s : ClientState) (rid : Nat) (r : ReqRecord),
      (∀ e ∈ evs, e.isRegister = false) → Live s rid r →
      (∃ e ∈ evs, Completes r rid e) →
      ∃ d, SettledAt (run s evs) rid d := by
  induction evs with
  | nil =>
    intro s rid r _ _ hc
    obtain ⟨e, he, _⟩ := hc
    exact absurd he (List.not_mem_nil e)
  | cons e rest ih =>
    intro s rid r hreg hlive hc
    rw [run_cons]
    by_cases hce : Completes r rid e
    · obtain ⟨d, hd⟩ := Completes_settles s rid r e hlive hce
      exact ⟨d, SettledAt_run rest (step s e) rid d
        (fun x hx => hreg x (List.mem_cons_of_mem e hx)) hd⟩
    · have hlive2 : Live (step s e) rid r :=
        Live_step s rid r e (hreg e (List.mem_cons_self e rest)) hce hlive
      obtain ⟨e2, he2, hce2⟩ := hc
      rcases List.mem_cons.mp he2 with h1 | h2
      · exact absurd (h1 ▸ hce2) hce
      · exact ih (step s e) rid r
          (fun x hx => hreg x (List.mem_cons_of_mem e hx)) hlive2 ⟨e2, h2, hce2⟩

/-- Teardown forces every record out of the pending set. -/
theorem abortRecord_active (r : ReqRecord) : (abortRecord r).active = false := by
  unfold abortRecord
  split
  · rfl
  · next h => exact Bool.not_eq_true _ ▸ Bool.eq_false_iff.mpr h

/-- A rejected deferred is never unsettled. -/
theorem tryReject_ne_unsettled (f : Failure) (d : DeferState) :
    tryReject f d ≠ DeferState.unsettled := by
  cases d <;> simp [tryReject]

/-- C1: every pending request registered by `sendRequest` is settled exactly
once — never zero times when one of the completion paths (matching response,
predicate-mismatch then later match, timeout, teardown) occurs in the trace,
and never more than once, since a settled deferred keeps its first settlement
value and a second resolve/reject attempt is a no-op. -/
theorem sendRequest_exactly_once_settlement :
    (∀ (evs : List Ev) (s : ClientState) (rid : Nat) (d : DeferState),
        (∀ e ∈ evs, e.isRegister = false) → SettledAt s rid d →
        SettledAt (run s evs) rid d)
    ∧ (∀ (evs : List Ev) (s : ClientState) (rid : Nat) (r : ReqRecord),
        (∀ e ∈ evs, e.isRegister = false) → Live s rid r →
        (∃ e ∈ evs, Completes r rid e) →
        ∃ d, SettledAt (run s evs) rid d)
    ∧ (∀ (d : DeferState) (pid : Nat) (rif : Option (RawMessage → Bool))
        (msg : RawMessage) (f : Failure), d ≠ DeferState.unsettled →
        settlerResolve pid rif msg d = d ∧ tryReject f d = d) :=
  ⟨fun evs s rid d h1 h2 => SettledAt_run evs s rid d h1 h2,
   fun evs s rid r h1 h2 h3 => Live_run_settles evs s rid r h1 h2 h3,
   fun d pid rif msg f hd =>
     ⟨settlerResolve_of_settled pid rif msg d hd, tryReject_of_settled f d hd⟩⟩

/-- Concrete run for C1: a request registered on a connected client is
settled by a teardown. -/
theorem sendRequest_exactly_once_settlement_witness :
    ∃ d, SettledAt
      (run (sendRequestSync connectedClient none true).1 [Ev.teardownE]) 1 d := by
  refine sendRequest_exactly_once_settlement.2.1 [Ev.teardownE]
    (sendRequestSync connectedClient none true).1 1
    { resolveIf := none, hasTimeout := true, active := true,
      dstate := DeferState.unsettled } ?_ ?_ ?_
  · intro e he
    rw [List.mem_singleton] at he
    subst he
    rfl
  · exact ⟨rfl, rfl, rfl⟩
  · exact ⟨Ev.teardownE, List.mem_singleton.mpr rfl, trivial⟩

/-- C2 (amended): when the timeout fires first, the pending request is
settled with a Timeout failure and its entry leaves the pending set, but
`sendRequest` swallows the failure — the call resolves with `undefined`
instead of returning/throwing the Timeout failure (there is no `quiet`
option in `src/src/index.ts`); in the `part_000` revision the timeout race
resolves silently with no Timeout failure at all. -/
theorem timeout_settles_but_is_swallowed :
    ∀ (s : ClientState) (rid : Nat) (r : ReqRecord),
      Live s rid r → r.hasTimeout = true →
      (step s (Ev.timerFires rid)).requests rid =
        some { r with dstate := DeferState.rejectedWith Failure.timeoutError,
                      active := false }
      ∧ sendRequestResult RaceResult.timedOut = CallOutcome.returns none
      ∧ (∀ q : Bool, sendRequestResultQuiet q RaceResultQuiet.delayElapsed =
          CallOutcomeQuiet.returnsPayload) :=
  fun s rid r h ht => ⟨timer_settles s rid r h ht, rfl, fun _ => rfl⟩

/-- Concrete run for C2: a request with a timeout on a connected client,
timer fires, entry settled with Timeout and removed, call resolves normally. -/
theorem timeout_settles_but_is_swallowed_witness :
    (step (sendRequestSync connectedClient none true).1 (Ev.timerFires 1)).requests 1 =
      some { resolveIf := none, hasTimeout := true, active := false,
             dstate := DeferState.rejectedWith Failure.timeoutError }
    ∧ sendRequestResult RaceResult.timedOut = CallOutcome.returns none := by
  have h := timeout_settles_but_is_swallowed (sendRequestSync connectedClient none true).1 1
    { resolveIf := none, hasTimeout := true, active := true,
      dstate := DeferState.unsettled } ⟨rfl, rfl, rfl⟩ rfl
  exact ⟨h.1, h.2.1⟩

/-- C2 counterexample: on the timeout path of `src/src/index.ts`, the
Timeout failure is not returned/thrown from the `sendRequest` call — the
call resolves with `undefined`. -/
theorem timeout_not_propagated_cex :
    sendRequestResult RaceResult.timedOut = CallOutcome.returns none
    ∧ sendRequestResult RaceResult.timedOut ≠ CallOutcome.throws Failure.timeoutError := by
  exact ⟨rfl, by decide⟩

/-- C3: `teardown` rejects every request currently in the pending set with
an abort failure (a no-op on a deferred that already settled), afterwards
the pending set is empty, and no pending request survives unsettled. -/
theorem teardown_rejects_all_pending :
    ∀ s : ClientState,
      (∀ k r2, (step s Ev.teardownE).requests k = some r2 → r2.active = false)
      ∧ (∀ k r, s.requests k = some r → r.active = true →
          (step s Ev.teardownE).requests k =
            some { r with dstate := tryReject Failure.abortError r.dstate,
                          active := false }
          ∧ (r.dstate = DeferState.unsettled →
              (step s Ev.teardownE).requests k =
                some { r with dstate := DeferState.rejectedWith Failure.abortError,
                              active := false })
          ∧ ∃ r2, (step s Ev.teardownE).requests k = some r2
              ∧ r2.dstate ≠ DeferState.unsettled) := by
  intro s
  constructor
  · intro k r2 h2
    have hk : (step s Ev.teardownE).requests k = (s.requests k).map abortRecord :=
      teardown_requests s k
    rw [hk] at h2
    cases hsk : s.requests k with
    | none => rw [hsk] at h2; exact absurd h2 (by simp)
    | some r =>
      rw [hsk] at h2
      simp at h2
      rw [← h2]
      exact abortRecord_active r
  · intro k r hr ha
    refine ⟨teardown_settles s k r hr ha, ?_, ?_⟩
    · intro hd
      rw [teardown_settles s k r hr ha, hd]
      rfl
    · refine ⟨⟨r.resolveIf, r.hasTimeout, false, tryReject Failure.abortError r.dstate⟩,
        teardown_settles s k r hr ha, ?_⟩
      exact tryReject_ne_unsettled Failure.abortError r.dstate

/-- Concrete run for C3: one pending request, teardown, entry rejected with
abort and pending set empty. -/
theorem teardown_rejects_all_pending_witness :
    (step (sendRequestSync connectedClient none false).1 Ev.teardownE).requests 1 =
      some { resolveIf := none, hasTimeout := false, active := false,
             dstate := DeferState.rejectedWith Failure.abortError } := by
  have h := (teardown_rejects_all_pending
    (sendRequestSync connectedClient none false).1).2 1
    { resolveIf := none, hasTimeout := false, active := true,
      dstate := DeferState.unsettled } rfl rfl
  exact h.2.1 rfl

/-- A GATT-notify guard success implies the UPDATE guard. -/
theorem isGATTNotifyUpdate_false_of_notUpdate (msg : RawMessage)
    (h : isUpdateMessage msg = false) : isGATTNotifyUpdate msg = false := by
  unfold isUpdateMessage at h
  unfold isGATTNotifyUpdate
  cases htype : msg.type <;> cases hup : msg.update <;> simp_all

/-- C4: with a `resolveIf` predicate, a matching-id response failing the
predicate leaves the request pending and unchanged, the request settles only
on a later same-id response passing the predicate, and every response whose
id is in the pending set is fanned out as an `UpdateMessage` event
independently of the predicate outcome. -/
theorem resolveIf_gates_settlement_fanout_always :
    ∀ (s : ClientState) (rid : Nat) (r : ReqRecord) (p : RawMessage → Bool)
      (msg1 msg2 : RawMessage),
      Live s rid r → r.resolveIf = some p →
      isUpdateMessage msg1 = true → msg1.id = rid → rid ≠ 0 → p msg1 = false →
      isUpdateMessage msg2 = true → msg2.id = rid → p msg2 = true →
      Live (step s (Ev.deliver msg1)) rid r
      ∧ Emitted.updateMessage msg1 ∈ (stepE s (Ev.deliver msg1)).2
      ∧ (step (step s (Ev.deliver msg1)) (Ev.deliver msg2)).requests rid =
          some { r with dstate := DeferState.resolvedWith msg2, active := false }
      ∧ (∀ msg : RawMessage, isUpdateMessage msg = true → msg.id = rid →
          Emitted.updateMessage msg ∈ (stepE s (Ev.deliver msg)).2) := by
  intro s rid r p msg1 msg2 hlive hrif hu1 hid1 h0 hp1 hu2 hid2 hp2
  have hpred1 : predPasses r.resolveIf msg1 = false := by
    rw [hrif]
    simp [predPasses, hp1]
  have hpred2 : predPasses r.resolveIf msg2 = true := by
    rw [hrif]
    simp [predPasses, hp2]
  have hnc : ¬ Completes r rid (Ev.deliver msg1) := by
    rintro ⟨_, _, _, hcp⟩
    rw [hpred1] at hcp
    exact absurd hcp (by simp)
  have hlive1 : Live (step s (Ev.deliver msg1)) rid r :=
    Live_step s rid r (Ev.deliver msg1) rfl hnc hlive
  refine ⟨hlive1, ?_, ?_, ?_⟩
  · show Emitted.updateMessage msg1 ∈ (onData s msg1).2
    exact onData_emits_update s msg1 r hu1 (fun hh => h0 (hid1.symm.trans hh))
      (hid1.symm ▸ hlive.1) hlive.2.1
  · exact deliver_settles (step s (Ev.deliver msg1)) rid r msg2 hlive1 hu2 hid2 h0 hpred2
  · intro msg hu hid
    show Emitted.updateMessage msg ∈ (onData s msg).2
    exact onData_emits_update s msg r hu (fun hh => h0 (hid.symm.trans hh))
      (hid.symm ▸ hlive.1) hlive.2.1

/-- Concrete run for C4: a scan request waiting for the device named DE1
survives a scan result without that name and settles on the one with it. -/
theorem resolveIf_gates_settlement_fanout_always_witness :
    Live
      (step (sendRequestSync connectedClient
          (some fun m => decide (m.name = some "DE1")) false).1
        (Ev.deliver
          { id := 1, type := MessageType.Update,
            update := UpdateType.ScanResult, mac := some "AA", name := some "X" }))
      1
      { resolveIf := some fun m => decide (m.name = some "DE1"),
        hasTimeout := false, active := true, dstate := DeferState.unsettled } := by
  have h := resolveIf_gates_settlement_fanout_always
    (sendRequestSync connectedClient
      (some fun m => decide (m.name = some "DE1")) false).1
    1
    { resolveIf := some fun m => decide (m.name = some "DE1"),
      hasTimeout := false, active := true, dstate := DeferState.unsettled }
    (fun m => decide (m.name = some "DE1"))
    { id := 1, type := MessageType.Update, update := UpdateType.ScanResult,
      mac := some "AA", name := some "X" }
    { id := 1, type := MessageType.Update, update := UpdateType.ScanResult,
      mac := some "BB", name := some "DE1" }
    ⟨rfl, rfl, rfl⟩ rfl rfl rfl (by decide) (by decide) rfl rfl (by decide)
  exact h.1

/-- C5 (amended): `send` throws `SocketNotReadyError` synchronously, with no
wire attempt, whenever the state is not `Connected` (or no socket is set);
when `sendRequest`'s internal `send` throws, the just-registered pending
request is immediately settled with that failure and removed from the
pending set — but the failure is swallowed: `sendRequest` resolves with
`undefined` instead of returning/throwing the failure to the caller. -/
theorem send_not_connected_settles_and_swallows :
    ∀ (s : ClientState) (d : String) (rif : Option (RawMessage → Bool)) (ht : Bool),
      (s.chState ≠ CafeHubState.Connected →
        send s d = Except.error Failure.socketNotReadyError)
      ∧ (send s d = Except.ok [d] ↔ s.hasWs = true ∧ s.chState = CafeHubState.Connected)
      ∧ (¬ (s.hasWs = true ∧ s.chState = CafeHubState.Connected) →
          (sendRequestSync s rif ht).1.requests (sendRequestSync s rif ht).2 =
            some { resolveIf := rif, hasTimeout := ht, active := false,
                   dstate := DeferState.rejectedWith Failure.socketNotReadyError })
      ∧ sendRequestResult (RaceResult.sendThrew Failure.socketNotReadyError) =
          CallOutcome.returns none := by
  intro s d rif ht
  refine ⟨?_, ?_, ?_, rfl⟩
  · intro hne
    unfold send
    rw [if_neg]
    rintro ⟨_, hc⟩
    exact hne hc
  · constructor
    · intro hok
      by_contra hcond
      unfold send at hok
      rw [if_neg hcond] at hok
      exact absurd hok (by simp)
    · intro hcond
      unfold send
      rw [if_pos hcond]
  · intro hncon
    unfold sendRequestSync
    simp only
    rw [if_neg hncon]
    simp [drainAt, updateReq_requests, rejectRecord, tryReject, deactivateSettled]

/-- Concrete run for C5: on a disconnected client, `send` throws, the
registered request is settled with `SocketNotReadyError` and removed. -/
theorem send_not_connected_settles_and_swallows_witness :
    send initialClient "x" = Except.error Failure.socketNotReadyError
    ∧ (sendRequestSync initialClient none false).1.requests
        (sendRequestSync initialClient none false).2 =
      some { resolveIf := none, hasTimeout := false, active := false,
             dstate := DeferState.rejectedWith Failure.socketNotReadyError } := by
  have h := send_not_connected_settles_and_swallows initialClient "x" none false
  exact ⟨h.1 (by simp [initialClient]), h.2.2.1 (by simp [initialClient])⟩

/-- C5 counterexample: when `send` throws `SocketNotReadyError` inside
`sendRequest`, the failure is not returned/thrown to the caller — the call
resolves with `undefined`. -/
theorem send_failure_not_propagated_cex :
    sendRequestResult (RaceResult.sendThrew Failure.socketNotReadyError) =
      CallOutcome.returns none
    ∧ sendRequestResult (RaceResult.sendThrew Failure.socketNotReadyError) ≠
      CallOutcome.throws Failure.socketNotReadyError := by
  exact ⟨rfl, by decide⟩

/-- Teardown on an already-torn-down record is the identity. -/
theorem abortRecord_idem (r : ReqRecord) :
    abortRecord (abortRecord r) = abortRecord r := by
  by_cases h : r.active = true <;> simp [abortRecord, h]

/-- C6: `teardown` is idempotent — after one `teardown` the state is
`Disconnected` and the pending set is empty, and a second `teardown`
produces the same observable state (every field except the fresh
abort-controller generation is unchanged). -/
theorem teardown_idempotent :
    ∀ s : ClientState,
      (step s Ev.teardownE).chState = CafeHubState.Disconnected
      ∧ (∀ k r2, (step s Ev.teardownE).requests k = some r2 → r2.active = false)
      ∧ step (step s Ev.teardownE) Ev.teardownE =
          { step s Ev.teardownE with
            abortGen := (step s Ev.teardownE).abortGen + 1 } := by
  intro s
  refine ⟨rfl, (teardown_rejects_all_pending s).1, ?_⟩
  show (teardown (teardown s).1).1 = _
  unfold teardown
  simp only
  rw [ClientState.mk.injEq]
  refine ⟨rfl, rfl, rfl, rfl, ?_⟩
  funext k
  show Option.map abortRecord (Option.map abortRecord (s.requests k)) =
      Option.map abortRecord (s.requests k)
  cases hsk : s.requests k with
  | none => rfl
  | some r => simp [abortRecord_idem]

/-- Concrete run for C6: double teardown on a client with one pending
request reaches `Disconnected` with an empty pending set. -/
theorem teardown_idempotent_witness :
    (step (sendRequestSync connectedClient none false).1 Ev.teardownE).chState =
      CafeHubState.Disconnected
    ∧ step (step (sendRequestSync connectedClient none false).1 Ev.teardownE)
        Ev.teardownE =
      { step (sendRequestSync connectedClient none false).1 Ev.teardownE with
        abortGen :=
          (step (sendRequestSync connectedClient none false).1 Ev.teardownE).abortGen
            + 1 } := by
  have h := teardown_idempotent (sendRequestSync connectedClient none false).1
  exact ⟨h.1, h.2.2⟩

/-- Closed form of the backoff iterates:
`backoffFrom re n = min (re + 250 * (n+1)) 10000`. -/
theorem backoffFrom_closed (n : Nat) : ∀ re : Option Nat,
    backoffFrom re n =
      min (re.getD 0 + ReconnectAfterStep * (n + 1)) ReconnectAfterMax := by
  induction n with
  | zero =>
    intro re
    show nextDelay re = _
    unfold nextDelay
    simp [ReconnectAfterStep]
  | succ n ih =>
    intro re
    show backoffFrom (some (nextDelay re)) n = _
    rw [ih (some (nextDelay re))]
    unfold nextDelay ReconnectAfterStep ReconnectAfterMax
    simp only [Option.getD_some]
    omega

/-- The `connect` retry loop over `n` failures followed by a success:
it connects, consumes `n + 1` attempts, and performs exactly the backoff
waits `backoffFrom re 0, …, backoffFrom re (n-1)`. -/
theorem connectLoop_all_closed_then_open (n : Nat) : ∀ (re : Option Nat) (cnt : Nat),
    connectLoop (Retry.flag true)
        (List.replicate n AttemptOutcome.closedEvt ++ [AttemptOutcome.opened]) re cnt
      = ⟨LoopOutcome.connected, waitsOf re ++ (List.range n).map (backoffFrom re),
         [CafeHubState.Connected], n + 1⟩ := by
  induction n with
  | zero =>
    intro re cnt
    simp [connectLoop]
  | succ n ih =>
    intro re cnt
    rw [List.replicate_succ, List.cons_append]
    show LoopResult.mk _ _ _ _ = _
    rw [ih (some (nextDelay re)) (cnt + 1)]
    rw [List.range_succ_eq_map, List.map_cons, List.map_map]
    rw [show List.map (backoffFrom re ∘ Nat.succ) (List.range n) =
        List.map (backoffFrom (some (nextDelay re))) (List.range n) from
      List.map_congr_left fun k _ => rfl]
    simp [waitsOf]
    rfl

/-- The `connect` retry loop over `k` failures followed by an abort signal:
the loop breaks out normally (no throw), consumes exactly `k + 1` attempts,
performs only the `k` backoff waits, and sets no state. -/
theorem connectLoop_all_closed_then_abort (k : Nat) : ∀ (re : Option Nat) (cnt : Nat),
    connectLoop (Retry.flag true)
        (List.replicate k AttemptOutcome.closedEvt ++ [AttemptOutcome.abortedSig]) re cnt
      = ⟨LoopOutcome.abortedBreak, waitsOf re ++ (List.range k).map (backoffFrom re),
         [], k + 1⟩ := by
  induction k with
  | zero =>
    intro re cnt
    simp [connectLoop]
  | succ k ih =>
    intro re cnt
    rw [List.replicate_succ, List.cons_append]
    show LoopResult.mk _ _ _ _ = _
    rw [ih (some (nextDelay re)) (cnt + 1)]
    rw [List.range_succ_eq_map, List.map_cons, List.map_map]
    rw [show List.map (backoffFrom re ∘ Nat.succ) (List.range k) =
        List.map (backoffFrom (some (nextDelay re))) (List.range k) from
      List.map_congr_left fun j _ => rfl]
    simp [waitsOf]
    rfl

/-- C7: within one `connect` call retrying over consecutive failures, the
backoff delays are exactly `backoff 0, backoff 1, …`; the sequence starts at
the step value 250, increases by exactly one step of 250 per consecutive
failure until it reaches the cap, is non-decreasing, and never exceeds the
cap 10000: `backoff n = min (250 * (n + 1)) 10000`. -/
theorem backoff_sequence_properties :
    (∀ n : Nat, (connectLoop (Retry.flag true)
        (List.replicate n AttemptOutcome.closedEvt ++ [AttemptOutcome.opened])
        none 0).waits = (List.range n).map backoff)
    ∧ backoff 0 = 250
    ∧ (∀ n : Nat, backoff n = min (250 * (n + 1)) 10000)
    ∧ (∀ n : Nat, backoff n ≤ backoff (n + 1))
    ∧ (∀ n : Nat, backoff n ≤ 10000)
    ∧ (∀ n : Nat, backoff n < 10000 → backoff (n + 1) = backoff n + 250) := by
  have hclosed : ∀ n : Nat, backoff n = min (250 * (n + 1)) 10000 := by
    intro n
    unfold backoff
    rw [backoffFrom_closed n none]
    simp [ReconnectAfterStep, ReconnectAfterMax]
  refine ⟨?_, ?_, hclosed, ?_, ?_, ?_⟩
  · intro n
    rw [connectLoop_all_closed_then_open n none 0]
    show waitsOf none ++ List.map (backoffFrom none) (List.range n) = _
    rw [show List.map (backoffFrom none) (List.range n) =
        List.map backoff (List.range n) from List.map_congr_left fun _ _ => rfl]
    rfl
  · rw [hclosed 0]
    omega
  · intro n
    rw [hclosed n, hclosed (n + 1)]
    omega
  · intro n
    rw [hclosed n]
    omega
  · intro n h
    rw [hclosed n] at h ⊢
    rw [hclosed (n + 1)]
    omega

/-- Concrete run for C7: the third retry waits 250 more than the second,
since the second delay 500 is still below the cap. -/
theorem backoff_sequence_properties_witness :
    backoff 1 < 10000 ∧ backoff 2 = backoff 1 + 250 :=
  ⟨by decide, backoff_sequence_properties.2.2.2.2.2 1 (by decide)⟩

/-- C10: when an abort signal (from `teardown` or a superseding `connect`)
interrupts the retry loop during a backoff delay or a connection attempt,
the loop breaks out and the `connect` call completes normally — it never
throws an Aborted error — performs no further retry attempts beyond the
aborted one, and performs no state transition of its own on the abort path. -/
theorem aborted_connect_completes_normally :
    ∀ k : Nat,
      connectLoop (Retry.flag true)
          (List.replicate k AttemptOutcome.closedEvt ++ [AttemptOutcome.abortedSig])
          none 0
        = ⟨LoopOutcome.abortedBreak, (List.range k).map backoff, [], k + 1⟩
      ∧ (∀ f, (connectLoop (Retry.flag true)
          (List.replicate k AttemptOutcome.closedEvt ++ [AttemptOutcome.abortedSig])
          none 0).outcome ≠ LoopOutcome.threw f) := by
  intro k
  have h := connectLoop_all_closed_then_abort k none 0
  constructor
  · rw [h]
    rfl
  · intro f
    rw [h]
    simp

/-- Concrete run for C10: two failed attempts, then teardown aborts the
third wait; the loop ends normally after exactly three attempts. -/
theorem aborted_connect_completes_normally_witness :
    connectLoop (Retry.flag true)
        (List.replicate 2 AttemptOutcome.closedEvt ++ [AttemptOutcome.abortedSig])
        none 0
      = ⟨LoopOutcome.abortedBreak, (List.range 2).map backoff, [], 3⟩ :=
  (aborted_connect_completes_normally 2).1

/-- Closed form of the id sequence: `idOf n = n % 999999999 + 1`. -/
theorem idOf_closed : ∀ n : Nat, idOf n = n % 999999999 + 1 := by
  intro n
  induction n with
  | zero => rfl
  | succ n ih =>
    show nextRequestId (some (idOf n)) = _
    rw [ih]
    unfold nextRequestId MaxRequestId
    simp only [Option.getD_some]
    omega

/-- C8: every id returned by `nextRequestId` lies in `1 … 999999999`
(`0` is never assigned), the sequence of ids from a fresh client is
`n % 999999999 + 1`, and two calls return the same id exactly when their
positions agree modulo `999999999` — ids repeat only after the counter
wraps around the `MaxRequestId` bound. -/
theorem nextRequestId_range_and_wrap :
    (∀ last : Option Nat,
        1 ≤ nextRequestId last ∧ nextRequestId last ≤ 999999999)
    ∧ (∀ n : Nat, idOf n = n % 999999999 + 1)
    ∧ (∀ m n : Nat, idOf m = idOf n ↔ m % 999999999 = n % 999999999) := by
  refine ⟨?_, idOf_closed, ?_⟩
  · intro last
    unfold nextRequestId MaxRequestId
    have hm := Nat.mod_lt (last.getD 0 + 1) (show 0 < 1000000000 by omega)
    omega
  · intro m n
    rw [idOf_closed m, idOf_closed n]
    omega

/-- Concrete run for C8: the very first id and the id after one full
wraparound coincide, and an id is always at least 1. -/
theorem nextRequestId_range_and_wrap_witness :
    idOf 0 = idOf 999999999 ∧ 1 ≤ nextRequestId none :=
  ⟨(nextRequestId_range_and_wrap.2.2 0 999999999).mpr (by norm_num),
   (nextRequestId_range_and_wrap.1 none).1⟩

/-- `nextRequestId` never returns 0. -/
theorem nextRequestId_pos (last : Option Nat) : 0 < nextRequestId last := by
  unfold nextRequestId
  exact Nat.lt_of_lt_of_le Nat.zero_lt_one (le_max_left _ _)

/-- Key 0 of the pending map stays empty across every event. -/
theorem zero_key_step (s : ClientState) (e : Ev) (h : s.requests 0 = none) :
    (step s e).requests 0 = none := by
  cases e with
  | deliver msg =>
    by_cases h0 : msg.id = 0
    · show (onData s msg).1.requests 0 = none
      rw [onData_fst_of_zero s msg h0]
      exact h
    · show (onData s msg).1.requests 0 = none
      rw [onData_requests_of_ne s msg 0 (fun hh => h0 hh.symm)]
      exact h
  | timerFires rid =>
    by_cases hk : rid = 0
    · subst hk
      have hl : lookupActive s 0 = none := by
        unfold lookupActive
        rw [h]
      show (timerFire s 0).requests 0 = none
      rw [timerFire_of_noentry s 0 hl]
      exact h
    · show (timerFire s rid).requests 0 = none
      rw [timerFire_requests_of_ne s rid 0 (fun hh => hk hh.symm)]
      exact h
  | teardownE =>
    show (teardown s).1.requests 0 = none
    rw [teardown_requests, h]
    rfl
  | register rif ht =>
    have hid : (0 : Nat) ≠ nextRequestId s.lastRequestId :=
      fun hh => absurd (hh ▸ nextRequestId_pos s.lastRequestId) (by omega)
    show (sendRequestSync s rif ht).1.requests 0 = none
    unfold sendRequestSync
    simp only
    split
    · simp only [if_neg hid]
      exact h
    · simp only [drainAt, updateReq_requests, if_neg hid]
      exact h

/-- C9: an incoming message with `id == 0` never settles any pending request
and never touches the pending map — the whole client state is unchanged and
the message is only dispatched as a `CharChange` notification when it is a
GATT-notify update; moreover, on every reachable client state, key 0 never
holds any entry of the pending map. -/
theorem id_zero_untouched_pending :
    (∀ (s : ClientState) (msg : RawMessage), msg.id = 0 →
        step s (Ev.deliver msg) = s
        ∧ (stepE s (Ev.deliver msg)).2 =
            (if isGATTNotifyUpdate msg = true then [Emitted.charChange msg] else []))
    ∧ (∀ evs : List Ev, (run initialClient evs).requests 0 = none) := by
  constructor
  · intro s msg h0
    constructor
    · exact onData_fst_of_zero s msg h0
    · show (onData s msg).2 = _
      unfold onData
      by_cases hu : isUpdateMessage msg = true
      · rw [if_pos hu, if_pos h0]
        split <;> simp_all
      · have hu2 : isUpdateMessage msg = false := by
          cases hv : isUpdateMessage msg
          · rfl
          · exact absurd hv hu
        rw [if_neg hu, isGATTNotifyUpdate_false_of_notUpdate msg hu2]
        simp
  · have hrun : ∀ (evs : List Ev) (s : ClientState), s.requests 0 = none →
        (run s evs).requests 0 = none := by
      intro evs
      induction evs with
      | nil => intro s h; exact h
      | cons e rest ih =>
        intro s h
        rw [run_cons]
        exact ih (step s e) (zero_key_step s e h)
    intro evs
    exact hrun evs initialClient rfl

/-- Concrete run for C9: a GATT-notify with id 0 on a client with a pending
request leaves the whole state unchanged and emits only `CharChange`. -/
theorem id_zero_untouched_pending_witness :
    step (sendRequestSync connectedClient none false).1
        (Ev.deliver
          { id := 0, type := MessageType.Update, update := UpdateType.GATTNotify,
            mac := none, name := none })
      = (sendRequestSync connectedClient none false).1
    ∧ (run initialClient [Ev.register none false, Ev.teardownE]).requests 0 = none := by
  constructor
  · exact (id_zero_untouched_pending.1 (sendRequestSync connectedClient none false).1
      { id := 0, type := MessageType.Update, update := UpdateType.GATTNotify,
        mac := none, name := none } rfl).1
  · exact id_zero_untouched_pending.2 [Ev.register none false, Ev.teardownE]
